import Mathlib

/-!
# Verification of `domain-primitives`: the typed entity identifier

Shallow embedding of `src/entity_id.rs`.  The repository defines one value
type, `EntityId<T>(Uuid, PhantomData<T>)`, a strongly typed wrapper around a
128-bit UUID.  The underlying `Uuid` type comes from the external `uuid`
crate; its behaviour (value equality, canonical lowercase hyphenated
rendering, version-4 generation, hashing of the raw value, textual parsing)
is modelled here from the specification of that external collaborator.

Raw 128-bit values are embedded as `Nat`, with bounds `< 2^128` stated
explicitly where they matter.
-/

namespace DomainPrimitives

/-- The external crate's 128-bit UUID value.  Modelled from the spec: a plain
128-bit quantity; equality is bitwise equality of the underlying value. -/
structure Uuid where
  val : Nat
  deriving DecidableEq, Repr

/-- Lowercase hexadecimal digit character for `n < 16`. -/
def hexChar (n : Nat) : Char :=
  if n < 10 then Char.ofNat (48 + n) else Char.ofNat (87 + n)

/-- The `w` lowercase hex digits of `n`, most significant first
(digit `i` counted from the least significant end is `n / 16^i % 16`). -/
def hexChars : Nat → Nat → List Char
  | 0, _ => []
  | w + 1, n => hexChar (n / 16 ^ w % 16) :: hexChars w n

/-- Modelled from the spec: the external `Uuid`'s `Display`, the canonical
lowercase hyphenated hexadecimal rendering, 8-4-4-4-12 hex digit groups. -/
def Uuid.render (u : Uuid) : String :=
  String.mk (hexChars 8 (u.val / 2 ^ 96)
    ++ '-' :: hexChars 4 (u.val / 2 ^ 80 % 2 ^ 16)
    ++ '-' :: hexChars 4 (u.val / 2 ^ 64 % 2 ^ 16)
    ++ '-' :: hexChars 4 (u.val / 2 ^ 48 % 2 ^ 16)
    ++ '-' :: hexChars 12 (u.val % 2 ^ 48))

/-- Modelled from the spec: the external `Uuid::new_v4`.  Missing from the
repository (it lives in the `uuid` crate); the spec says: set 6 fixed bits
for version (`0100`) and variant (`10`), fill the remaining 122 bits with
random data.  `r` is the single 128-bit draw from the random source. -/
def Uuid.new_v4 (r : Nat) : Uuid :=
  ⟨(r / 2 ^ 80 % 2 ^ 48) * 2 ^ 80      -- bits 80..127: random
    + 4 * 2 ^ 76                       -- bits 76..79: version 0100
    + (r / 2 ^ 64 % 2 ^ 12) * 2 ^ 64   -- bits 64..75: random
    + 2 * 2 ^ 62                       -- bits 62..63: variant 10
    + r % 2 ^ 62⟩                      -- bits 0..61: random

/-- Modelled from the spec: the external `Uuid`'s `Hash` delegates entirely
to the underlying 128-bit value's hash.  A hasher is embedded as a state
type `σ` and a state-update function `write` fed the 128-bit value. -/
def Uuid.hashWith {σ : Type} (write : σ → Nat → σ) (u : Uuid) (state : σ) : σ :=
  write state u.val

/-- Single hexadecimal digit value of a character (both cases accepted). -/
def hexVal (c : Char) : Option Nat :=
  if 48 ≤ c.toNat ∧ c.toNat ≤ 57 then some (c.toNat - 48)
  else if 97 ≤ c.toNat ∧ c.toNat ≤ 102 then some (c.toNat - 87)
  else if 65 ≤ c.toNat ∧ c.toNat ≤ 70 then some (c.toNat - 55)
  else none

/-- Parse exactly `w` hex digits from the front of `cs`, accumulating
big-endian into `acc`; returns the value and the remaining characters. -/
def parseFixed : Nat → Nat → List Char → Option (Nat × List Char)
  | 0, acc, cs => some (acc, cs)
  | _ + 1, _, [] => none
  | w + 1, acc, c :: cs =>
    match hexVal c with
    | some d => parseFixed w (acc * 16 + d) cs
    | none => none

/-- Consume one hyphen from the front of the character list. -/
def expectHyphen : List Char → Option (List Char)
  | '-' :: cs => some cs
  | _ => none

/-- Modelled from the spec: the external UUID parser on the character level —
five hyphen-separated groups of 8, 4, 4, 4 and 12 hex digits. -/
def parseUuidChars (cs : List Char) : Option Nat :=
  (parseFixed 8 0 cs).bind fun p1 =>
  (expectHyphen p1.2).bind fun r1 =>
  (parseFixed 4 0 r1).bind fun p2 =>
  (expectHyphen p2.2).bind fun r2 =>
  (parseFixed 4 0 r2).bind fun p3 =>
  (expectHyphen p3.2).bind fun r3 =>
  (parseFixed 4 0 r3).bind fun p4 =>
  (expectHyphen p4.2).bind fun r4 =>
  (parseFixed 12 0 r4).bind fun p5 =>
  if p5.2 = [] then
    some (p1.1 * 2 ^ 96 + p2.1 * 2 ^ 80 + p3.1 * 2 ^ 64 + p4.1 * 2 ^ 48 + p5.1)
  else none

/-- Modelled from the spec: the external UUID parser, producing a raw value
wrapped as a `Uuid`. -/
def Uuid.parse (s : String) : Option Uuid :=
  (parseUuidChars s.data).map Uuid.mk

/-- `EntityId<T>(Uuid, PhantomData<T>)` from `src/entity_id.rs`: a `Uuid`
tagged with a phantom marker type `T` (the `PhantomData` field holds no
data and is represented by the type parameter alone). -/
structure EntityId (T : Type) where
  uuid : Uuid
  deriving DecidableEq, Repr

namespace EntityId

variable {T : Type}

/-- `EntityId::new`: `Self(Uuid::new_v4(), PhantomData)`.  The single
128-bit draw `r` from the random source is passed explicitly. -/
def new (T : Type) (r : Nat) : EntityId T :=
  ⟨Uuid.new_v4 r⟩

/-- `EntityId::from_uuid`: `Self(uuid, PhantomData)`. -/
def from_uuid (T : Type) (u : Uuid) : EntityId T :=
  ⟨u⟩

/-- `EntityId::to_uuid`: returns `self.0`. -/
def to_uuid (x : EntityId T) : Uuid :=
  x.uuid

/-- `impl PartialEq for EntityId<T>`: `self.0 == other.0`; the external
`Uuid` equality is bitwise equality of the 128-bit values. -/
def eq (x y : EntityId T) : Bool :=
  x.uuid.val == y.uuid.val

/-- `#[derive(Clone)]`: the derived clone copies the `Uuid` field. -/
def clone (x : EntityId T) : EntityId T :=
  ⟨x.uuid⟩

/-- `impl Hash for EntityId<T>`: `self.0.hash(state)`. -/
def hashWith {σ : Type} (write : σ → Nat → σ) (x : EntityId T) (state : σ) : σ :=
  Uuid.hashWith write x.uuid state

/-- `impl Display for EntityId<T>`: `write!(f, "{}", self.0)`. -/
def display (x : EntityId T) : String :=
  Uuid.render x.uuid

end EntityId

/-! ## Helper lemmas about the canonical rendering and the parser -/

/-- The lowercase hexadecimal alphabet of the canonical textual form. -/
def hexAlphabet : List Char :=
  "0123456789abcdef".data

theorem hexChar_mem_hexAlphabet (d : Nat) (h : d < 16) : hexChar d ∈ hexAlphabet := by
  interval_cases d <;> decide

theorem hexVal_hexChar (d : Nat) (h : d < 16) : hexVal (hexChar d) = some d := by
  interval_cases d <;> decide

theorem length_hexChars (w n : Nat) : (hexChars w n).length = w := by
  induction w generalizing n with
  | zero => rfl
  | succ w ih => simp [hexChars, ih]

theorem mem_hexChars (w n : Nat) (c : Char) (h : c ∈ hexChars w n) :
    c ∈ hexAlphabet := by
  induction w generalizing n with
  | zero => simp [hexChars] at h
  | succ w ih =>
    simp only [hexChars, List.mem_cons] at h
    rcases h with h | h
    · exact h ▸ hexChar_mem_hexAlphabet _ (Nat.mod_lt _ (by norm_num))
    · exact ih n h

theorem parseFixed_hexChars (w : Nat) :
    ∀ (acc n : Nat) (rest : List Char),
      parseFixed w acc (hexChars w n ++ rest)
        = some (acc * 16 ^ w + n % 16 ^ w, rest) := by
  induction w with
  | zero =>
    intro acc n rest
    simp [parseFixed, hexChars, Nat.mod_one]
  | succ w ih =>
    intro acc n rest
    have hd : n / 16 ^ w % 16 < 16 := Nat.mod_lt _ (by norm_num)
    simp only [hexChars, List.cons_append, parseFixed, hexVal_hexChar _ hd,
      List.append_eq]
    rw [ih]
    refine congrArg some (Prod.ext ?_ rfl)
    show (acc * 16 + n / 16 ^ w % 16) * 16 ^ w + n % 16 ^ w
        = acc * 16 ^ (w + 1) + n % 16 ^ (w + 1)
    rw [pow_succ, Nat.mod_mul]
    ring

theorem parseFixed_hexChars_nil (w acc n : Nat) :
    parseFixed w acc (hexChars w n) = some (acc * 16 ^ w + n % 16 ^ w, []) := by
  have := parseFixed_hexChars w acc n []
  rwa [List.append_nil] at this

theorem parseUuidChars_render (v : Nat) (h : v < 2 ^ 128) :
    parseUuidChars (Uuid.render ⟨v⟩).data = some v := by
  show parseUuidChars (hexChars 8 (v / 2 ^ 96)
    ++ '-' :: (hexChars 4 (v / 2 ^ 80 % 2 ^ 16)
    ++ '-' :: (hexChars 4 (v / 2 ^ 64 % 2 ^ 16)
    ++ '-' :: (hexChars 4 (v / 2 ^ 48 % 2 ^ 16)
    ++ '-' :: hexChars 12 (v % 2 ^ 48))))) = some v
  simp only [parseUuidChars, parseFixed_hexChars, parseFixed_hexChars_nil,
    Option.some_bind, expectHyphen]
  norm_num
  omega

/-! ## Claim theorems -/

/-- C1. Round-trip identity: for every 128-bit raw value, wrapping it with
`from_uuid` and extracting it with `to_uuid` returns it unchanged, for any
kind marker `T`. -/
theorem claim_C1_roundtrip (T : Type) (u : Uuid) :
    (EntityId.from_uuid T u).to_uuid = u :=
  rfl

/-- C2. Equality holds iff the underlying 128-bit raw values are equal; the
comparison is a function of the raw values alone, so the kind marker plays
no role; and two identifiers of the same kind built from the same raw value
compare equal. -/
theorem claim_C2_eq_iff_raw (T : Type) (x y : EntityId T) (v : Nat) :
    (EntityId.eq x y = true ↔ x.to_uuid.val = y.to_uuid.val)
    ∧ EntityId.eq x y = (x.to_uuid.val == y.to_uuid.val)
    ∧ EntityId.eq (EntityId.from_uuid T ⟨v⟩) (EntityId.from_uuid T ⟨v⟩) = true := by
  refine ⟨beq_iff_eq, rfl, ?_⟩
  simp [EntityId.eq, EntityId.from_uuid]

theorem claim_C2_witness :
    (EntityId.eq (EntityId.from_uuid Unit ⟨5⟩) (EntityId.from_uuid Unit ⟨7⟩) = true
      ↔ (EntityId.from_uuid Unit ⟨5⟩).to_uuid.val
          = (EntityId.from_uuid Unit ⟨7⟩).to_uuid.val)
    ∧ EntityId.eq (EntityId.from_uuid Unit ⟨5⟩) (EntityId.from_uuid Unit ⟨7⟩)
        = ((EntityId.from_uuid Unit ⟨5⟩).to_uuid.val
            == (EntityId.from_uuid Unit ⟨7⟩).to_uuid.val)
    ∧ EntityId.eq (EntityId.from_uuid Unit ⟨3⟩) (EntityId.from_uuid Unit ⟨3⟩) = true :=
  claim_C2_eq_iff_raw Unit (EntityId.from_uuid Unit ⟨5⟩) (EntityId.from_uuid Unit ⟨7⟩) 3

/-- C3. Hashing delegates entirely to the underlying 128-bit value: hashing
`from_uuid v` writes exactly `v` into the hasher state, independently of the
kind marker, and agrees with hashing the raw `Uuid` directly; identifiers
with identical raw values hash identically. -/
theorem claim_C3_hash_consistency {σ : Type} (write : σ → Nat → σ)
    (T1 T2 : Type) (v : Nat) (state : σ) (x y : EntityId T1)
    (hxy : x.to_uuid = y.to_uuid) :
    EntityId.hashWith write (EntityId.from_uuid T1 ⟨v⟩) state = write state v
    ∧ EntityId.hashWith write (EntityId.from_uuid T1 ⟨v⟩) state
        = EntityId.hashWith write (EntityId.from_uuid T2 ⟨v⟩) state
    ∧ EntityId.hashWith write (EntityId.from_uuid T1 ⟨v⟩) state
        = Uuid.hashWith write ⟨v⟩ state
    ∧ EntityId.hashWith write x state = EntityId.hashWith write y state := by
  refine ⟨rfl, rfl, rfl, ?_⟩
  simp only [EntityId.hashWith, Uuid.hashWith]
  rw [show x.uuid = y.uuid from hxy]

theorem claim_C3_witness :
    (EntityId.from_uuid Unit ⟨9⟩).to_uuid = (EntityId.from_uuid Unit ⟨9⟩).to_uuid
    ∧ (EntityId.hashWith (fun s n => s * 31 + n) (EntityId.from_uuid Unit ⟨9⟩) 7
          = (fun (s n : Nat) => s * 31 + n) 7 9
      ∧ EntityId.hashWith (fun s n => s * 31 + n) (EntityId.from_uuid Unit ⟨9⟩) 7
          = EntityId.hashWith (fun s n => s * 31 + n) (EntityId.from_uuid Bool ⟨9⟩) 7
      ∧ EntityId.hashWith (fun s n => s * 31 + n) (EntityId.from_uuid Unit ⟨9⟩) 7
          = Uuid.hashWith (fun s n => s * 31 + n) ⟨9⟩ 7
      ∧ EntityId.hashWith (fun s n => s * 31 + n) (EntityId.from_uuid Unit ⟨9⟩) 7
          = EntityId.hashWith (fun s n => s * 31 + n) (EntityId.from_uuid Unit ⟨9⟩) 7) :=
  ⟨rfl, claim_C3_hash_consistency (fun s n => s * 31 + n) Unit Bool 9 7
    (EntityId.from_uuid Unit ⟨9⟩) (EntityId.from_uuid Unit ⟨9⟩) rfl⟩

/-- C4. Textual rendering: the rendered string of any identifier is the
canonical form of its raw 128-bit value — five groups of 8, 4, 4, 4 and 12
lowercase hexadecimal digits separated by hyphens, with nothing before the
first group or after the last (so no kind-specific decoration, no alternate
casing, braces or URN form), and the digits encode exactly the raw value
(the parser recovers it). -/
theorem claim_C4_display_canonical (T : Type) (v : Nat) (h : v < 2 ^ 128) :
    EntityId.display (EntityId.from_uuid T ⟨v⟩) = Uuid.render ⟨v⟩
    ∧ (∃ g1 g2 g3 g4 g5 : List Char,
        (EntityId.display (EntityId.from_uuid T ⟨v⟩)).data
          = g1 ++ '-' :: (g2 ++ '-' :: (g3 ++ '-' :: (g4 ++ '-' :: g5)))
        ∧ g1.length = 8 ∧ g2.length = 4 ∧ g3.length = 4 ∧ g4.length = 4
        ∧ g5.length = 12
        ∧ (∀ c, (c ∈ g1 ∨ c ∈ g2 ∨ c ∈ g3 ∨ c ∈ g4 ∨ c ∈ g5) →
            c ∈ hexAlphabet))
    ∧ parseUuidChars (EntityId.display (EntityId.from_uuid T ⟨v⟩)).data
        = some v := by
  refine ⟨rfl, ⟨hexChars 8 (v / 2 ^ 96), hexChars 4 (v / 2 ^ 80 % 2 ^ 16),
    hexChars 4 (v / 2 ^ 64 % 2 ^ 16), hexChars 4 (v / 2 ^ 48 % 2 ^ 16),
    hexChars 12 (v % 2 ^ 48), rfl, length_hexChars .., length_hexChars ..,
    length_hexChars .., length_hexChars .., length_hexChars .., ?_⟩,
    parseUuidChars_render v h⟩
  rintro c (hc | hc | hc | hc | hc) <;> exact mem_hexChars _ _ c hc

theorem claim_C4_witness :
    0x550e8400e29b41d4a716446655440000 < 2 ^ 128
    ∧ (EntityId.display (EntityId.from_uuid Unit ⟨0x550e8400e29b41d4a716446655440000⟩)
        = Uuid.render ⟨0x550e8400e29b41d4a716446655440000⟩
      ∧ (∃ g1 g2 g3 g4 g5 : List Char,
          (EntityId.display
            (EntityId.from_uuid Unit ⟨0x550e8400e29b41d4a716446655440000⟩)).data
            = g1 ++ '-' :: (g2 ++ '-' :: (g3 ++ '-' :: (g4 ++ '-' :: g5)))
          ∧ g1.length = 8 ∧ g2.length = 4 ∧ g3.length = 4 ∧ g4.length = 4
          ∧ g5.length = 12
          ∧ (∀ c, (c ∈ g1 ∨ c ∈ g2 ∨ c ∈ g3 ∨ c ∈ g4 ∨ c ∈ g5) →
              c ∈ hexAlphabet))
      ∧ parseUuidChars (EntityId.display
          (EntityId.from_uuid Unit ⟨0x550e8400e29b41d4a716446655440000⟩)).data
          = some 0x550e8400e29b41d4a716446655440000) :=
  ⟨by norm_num,
    claim_C4_display_canonical Unit 0x550e8400e29b41d4a716446655440000 (by norm_num)⟩

/-- C5. Totality: `from_uuid` accepts any 128-bit value unconditionally —
the wrapped value is stored unchanged with no validation of version or
variant bits — and rendering is total, always producing a 36-character
string.  (The witness instantiates a value whose version nibble is 0, not
4, i.e. not a well-formed version-4 UUID.) -/
theorem claim_C5_totality (T : Type) (v : Nat) (_h : v < 2 ^ 128) :
    (EntityId.from_uuid T ⟨v⟩).to_uuid = ⟨v⟩
    ∧ (EntityId.display (EntityId.from_uuid T ⟨v⟩)).length = 36 := by
  refine ⟨rfl, ?_⟩
  show (Uuid.render ⟨v⟩).length = 36
  simp [Uuid.render, String.length, length_hexChars]

theorem claim_C5_witness :
    (0 : Nat) < 2 ^ 128
    ∧ ((EntityId.from_uuid Unit ⟨0⟩).to_uuid = ⟨0⟩
      ∧ (EntityId.display (EntityId.from_uuid Unit ⟨0⟩)).length = 36) :=
  ⟨by norm_num, claim_C5_totality Unit 0 (by norm_num)⟩

/-- C6. Generation: `new` wraps a single draw `r` from the random source via
`Uuid.new_v4` with no additional mixing, and the produced value has the 6
fixed bits set — version nibble (bits 76..79) equal to `0100` and variant
bits (62..63) equal to `10` — while the remaining 122 bits (0..61, 64..75
and 80..127) are taken unchanged from the draw; the result is a 128-bit
value. -/
theorem claim_C6_generation (T : Type) (r : Nat) :
    (EntityId.new T r).to_uuid = Uuid.new_v4 r
    ∧ (Uuid.new_v4 r).val / 2 ^ 76 % 2 ^ 4 = 4
    ∧ (Uuid.new_v4 r).val / 2 ^ 62 % 2 ^ 2 = 2
    ∧ (Uuid.new_v4 r).val % 2 ^ 62 = r % 2 ^ 62
    ∧ (Uuid.new_v4 r).val / 2 ^ 64 % 2 ^ 12 = r / 2 ^ 64 % 2 ^ 12
    ∧ (Uuid.new_v4 r).val / 2 ^ 80 % 2 ^ 48 = r / 2 ^ 80 % 2 ^ 48
    ∧ (Uuid.new_v4 r).val < 2 ^ 128 := by
  refine ⟨rfl, ?_, ?_, ?_, ?_, ?_, ?_⟩ <;>
    · simp only [Uuid.new_v4]
      norm_num
      omega

/-- C7. Textual round-trip: the rendered string of `from_uuid v` is the
canonical hyphenated-hex string of `v`; parsing it back through the external
parser recovers exactly `v`, and wrapping the parsed value reproduces an
identifier equal to the original. -/
theorem claim_C7_text_roundtrip (T : Type) (v : Nat) (h : v < 2 ^ 128) :
    EntityId.display (EntityId.from_uuid T ⟨v⟩) = Uuid.render ⟨v⟩
    ∧ Uuid.parse (EntityId.display (EntityId.from_uuid T ⟨v⟩)) = some ⟨v⟩
    ∧ (Uuid.parse (EntityId.display (EntityId.from_uuid T ⟨v⟩))).map
        (EntityId.from_uuid T) = some (EntityId.from_uuid T ⟨v⟩) := by
  have hp : Uuid.parse (EntityId.display (EntityId.from_uuid T ⟨v⟩)) = some ⟨v⟩ := by
    show (parseUuidChars (Uuid.render ⟨v⟩).data).map Uuid.mk = some ⟨v⟩
    rw [parseUuidChars_render v h]
    rfl
  exact ⟨rfl, hp, by rw [hp]; rfl⟩

theorem claim_C7_witness :
    0x550e8400e29b41d4a716446655440123 < 2 ^ 128
    ∧ (EntityId.display (EntityId.from_uuid Unit ⟨0x550e8400e29b41d4a716446655440123⟩)
        = Uuid.render ⟨0x550e8400e29b41d4a716446655440123⟩
      ∧ Uuid.parse (EntityId.display
          (EntityId.from_uuid Unit ⟨0x550e8400e29b41d4a716446655440123⟩))
          = some ⟨0x550e8400e29b41d4a716446655440123⟩
      ∧ (Uuid.parse (EntityId.display
          (EntityId.from_uuid Unit ⟨0x550e8400e29b41d4a716446655440123⟩))).map
          (EntityId.from_uuid Unit)
          = some (EntityId.from_uuid Unit ⟨0x550e8400e29b41d4a716446655440123⟩)) :=
  ⟨by norm_num,
    claim_C7_text_roundtrip Unit 0x550e8400e29b41d4a716446655440123 (by norm_num)⟩

/-- C8. Distinctness of generated identifiers: whenever two draws from the
random source differ in any of their 122 random bit positions (bits 0..61,
64..75 or 80..127), the two generated identifiers of the same kind are
unequal.  (The probabilistic "overwhelming probability" clause reduces to
this determinate implication.) -/
theorem claim_C8_generated_distinct (T : Type) (r1 r2 : Nat)
    (h : r1 % 2 ^ 62 ≠ r2 % 2 ^ 62
      ∨ r1 / 2 ^ 64 % 2 ^ 12 ≠ r2 / 2 ^ 64 % 2 ^ 12
      ∨ r1 / 2 ^ 80 % 2 ^ 48 ≠ r2 / 2 ^ 80 % 2 ^ 48) :
    EntityId.eq (EntityId.new T r1) (EntityId.new T r2) = false := by
  simp only [EntityId.eq, EntityId.new, Uuid.new_v4, beq_eq_false_iff_ne, ne_eq]
  intro hval
  norm_num at h hval
  omega

theorem claim_C8_witness :
    ((1 : Nat) % 2 ^ 62 ≠ (2 : Nat) % 2 ^ 62
      ∨ (1 : Nat) / 2 ^ 64 % 2 ^ 12 ≠ (2 : Nat) / 2 ^ 64 % 2 ^ 12
      ∨ (1 : Nat) / 2 ^ 80 % 2 ^ 48 ≠ (2 : Nat) / 2 ^ 80 % 2 ^ 48)
    ∧ EntityId.eq (EntityId.new Unit 1) (EntityId.new Unit 2) = false :=
  ⟨Or.inl (by decide),
    claim_C8_generated_distinct Unit 1 2 (Or.inl (by decide))⟩

/-- C9. Immutability and copyability: the derived clone of an identifier is
the identifier itself — it compares equal to the original and renders to the
same string — and, all operations being pure, cloning leaves the original
unchanged. -/
theorem claim_C9_clone (T : Type) (x : EntityId T) :
    EntityId.clone x = x
    ∧ EntityId.eq (EntityId.clone x) x = true
    ∧ EntityId.display (EntityId.clone x) = EntityId.display x := by
  refine ⟨rfl, ?_, rfl⟩
  simp [EntityId.eq, EntityId.clone]

/-- C10. Equality is a lawful equivalence relation on identifiers of each
kind: reflexive, symmetric and transitive. -/
theorem claim_C10_eq_equivalence (T : Type) (x y z : EntityId T) :
    EntityId.eq x x = true
    ∧ (EntityId.eq x y = true → EntityId.eq y x = true)
    ∧ (EntityId.eq x y = true → EntityId.eq y z = true →
        EntityId.eq x z = true) := by
  refine ⟨?_, ?_, ?_⟩
  · simp [EntityId.eq]
  · intro h
    simp only [EntityId.eq, beq_iff_eq] at h ⊢
    exact h.symm
  · intro h1 h2
    simp only [EntityId.eq, beq_iff_eq] at h1 h2 ⊢
    exact h1.trans h2

theorem claim_C10_witness :
    EntityId.eq (EntityId.from_uuid Unit ⟨4⟩) (EntityId.from_uuid Unit ⟨4⟩) = true
    ∧ (EntityId.eq (EntityId.from_uuid Unit ⟨4⟩) (EntityId.from_uuid Unit ⟨6⟩) = true →
        EntityId.eq (EntityId.from_uuid Unit ⟨6⟩) (EntityId.from_uuid Unit ⟨4⟩) = true)
    ∧ (EntityId.eq (EntityId.from_uuid Unit ⟨4⟩) (EntityId.from_uuid Unit ⟨6⟩) = true →
        EntityId.eq (EntityId.from_uuid Unit ⟨6⟩) (EntityId.from_uuid Unit ⟨8⟩) = true →
        EntityId.eq (EntityId.from_uuid Unit ⟨4⟩) (EntityId.from_uuid Unit ⟨8⟩) = true) :=
  claim_C10_eq_equivalence Unit (EntityId.from_uuid Unit ⟨4⟩)
    (EntityId.from_uuid Unit ⟨6⟩) (EntityId.from_uuid Unit ⟨8⟩)

end DomainPrimitives
